import Mathlib

/-!
Verification of the parking auction monitor pipeline
(`parking_auction_monitor.py`): a shallow embedding of its pure core —
search-term matching, date parsing and comparison, sorting, dedup and
recency filtering, subject-line formatting, and the JSON record store —
together with theorems about the behaviour of these operations.

Strings are modelled as `List Char`; Python `datetime` values are modelled
as integers counting seconds, with a calendar date `(y, m, d)` mapped to
`toOrdinal y m d * 86400` (the proleptic Gregorian ordinal, as in the Python
`date.toordinal`, times the number of seconds in a day).  File-system and
network effects are modelled by explicit oracles for success/failure.
-/

/-! ## Basic string machinery -/

/-- ASCII lowering of one character, modelling Python `str.lower()` on the
ASCII range (the configured search terms are ASCII). -/
def lowerCh (c : Char) : Char :=
  if 'A' ≤ c ∧ c ≤ 'Z' then Char.ofNat (c.toNat + 32) else c

/-- Lowering of a whole string (`title.lower()` in the source). -/
def lowerStr (s : List Char) : List Char := s.map lowerCh

/-- Boolean test that the first list is a leading segment of the second. -/
def isPrefOf : List Char → List Char → Bool
  | [], _ => true
  | _ :: _, [] => false
  | a :: as, b :: bs => decide (a = b) && isPrefOf as bs

/-- Boolean substring containment, modelling the Python `needle in hay` on
strings: `needle` occurs contiguously somewhere in `hay`. -/
def hasSubstr : List Char → List Char → Bool
  | needle, [] => isPrefOf needle []
  | needle, c :: t => isPrefOf needle (c :: t) || hasSubstr needle t

/-- Strict lexicographic comparison by code point, modelling the Python `<`
on strings (used by `sorted`). -/
def lexLt : List Char → List Char → Bool
  | [], [] => false
  | [], _ :: _ => true
  | _ :: _, [] => false
  | a :: as, b :: bs =>
    if a.toNat < b.toNat then true
    else if b.toNat < a.toNat then false
    else lexLt as bs

/-! ## Configuration constants from the source -/

/-- The fixed base URL (`base_url` in the source). -/
def base_url : List Char := "https://www.primaria-iasi.ro".toList

/-- The configured search-term combinations (`search_terms` in the source). -/
def search_terms : List (List Char × List Char) :=
  [ ("Nr. 33".toList, "964B".toList),
    ("Tudor Neculai".toList, "971B".toList),
    ("Tudor Neculai".toList, "971A".toList) ]

/-- Python renders the value `None` as the four characters `None` when it is
interpolated into an f-string. -/
def noneLit : List Char := "None".toList

/-! ## Date parsing, `datetime.strptime(date_str, percent-d.percent-m.percent-Y)`

the Python `_strptime` compiles the format to a regex; the day directive
matches `3[01]|[12]\d|0[1-9]|[1-9]` (alternatives tried in that order), the
month matches `1[0-2]|0[1-9]|[1-9]`, and the year matches four digits.  The
whole input must be consumed, and `datetime(y, m, d)` then checks the year
is at least 1 and the day fits the month.  Character-code bounds: 48 is
the code of the digit 0, 49 of 1, 50 of 2, 57 of 9. -/

/-- Numeric value of a digit character. -/
def digitVal (c : Char) : Nat := c.toNat - 48

/-- Character code lies in the inclusive range `[lo, hi]`. -/
def chBetween (lo hi : Nat) (c : Char) : Prop := lo ≤ c.toNat ∧ c.toNat ≤ hi

instance (lo hi : Nat) (c : Char) : Decidable (chBetween lo hi c) :=
  inferInstanceAs (Decidable (_ ∧ _))

/-- Match the day directive at the head of the input, returning the day and
the rest of the input. -/
def matchDay : List Char → Option (Nat × List Char)
  | [] => none
  | [c] => if chBetween 49 57 c then some (digitVal c, []) else none
  | c1 :: c2 :: rest =>
    if c1 = '3' ∧ chBetween 48 49 c2 then some (30 + digitVal c2, rest)
    else if (c1 = '1' ∨ c1 = '2') ∧ chBetween 48 57 c2 then
      some (10 * digitVal c1 + digitVal c2, rest)
    else if c1 = '0' ∧ chBetween 49 57 c2 then some (digitVal c2, rest)
    else if chBetween 49 57 c1 then some (digitVal c1, c2 :: rest)
    else none

/-- Match the month directive at the head of the input. -/
def matchMonth : List Char → Option (Nat × List Char)
  | [] => none
  | [c] => if chBetween 49 57 c then some (digitVal c, []) else none
  | c1 :: c2 :: rest =>
    if c1 = '1' ∧ chBetween 48 50 c2 then some (10 + digitVal c2, rest)
    else if c1 = '0' ∧ chBetween 49 57 c2 then some (digitVal c2, rest)
    else if chBetween 49 57 c1 then some (digitVal c1, c2 :: rest)
    else none

/-- Match the four-digit year directive at the head of the input. -/
def matchYear : List Char → Option (Nat × List Char)
  | a :: b :: c :: d :: rest =>
    if chBetween 48 57 a ∧ chBetween 48 57 b ∧ chBetween 48 57 c ∧ chBetween 48 57 d then
      some (1000 * digitVal a + 100 * digitVal b + 10 * digitVal c + digitVal d, rest)
    else none
  | _ => none

/-- Match the complete day-dot-month-dot-year format against the whole
input (trailing unconsumed characters make the parse fail, as in
`strptime`). -/
def parseDMY (s : List Char) : Option (Nat × Nat × Nat) :=
  match matchDay s with
  | none => none
  | some (d, r1) =>
    match r1 with
    | [] => none
    | c :: r2 =>
      if c = '.' then
        match matchMonth r2 with
        | none => none
        | some (m, r3) =>
          match r3 with
          | [] => none
          | c2 :: r4 =>
            if c2 = '.' then
              match matchYear r4 with
              | none => none
              | some (y, r5) => if r5 = [] then some (d, m, y) else none
            else none
      else none

/-- Gregorian leap-year test. -/
def isLeap (y : Nat) : Bool := decide (y % 4 = 0 ∧ (y % 100 ≠ 0 ∨ y % 400 = 0))

/-- Number of days in month `m` of year `y`. -/
def daysInMonth (y m : Nat) : Nat :=
  if m = 2 then (if isLeap y then 29 else 28)
  else if m = 4 ∨ m = 6 ∨ m = 9 ∨ m = 11 then 30
  else 31

/-- Days in year `y` before the first of month `m`. -/
def daysBeforeMonth (y m : Nat) : Nat :=
  (match m with
   | 1 => 0 | 2 => 31 | 3 => 59 | 4 => 90 | 5 => 120 | 6 => 151
   | 7 => 181 | 8 => 212 | 9 => 243 | 10 => 273 | 11 => 304 | _ => 334)
  + (if 3 ≤ m ∧ isLeap y = true then 1 else 0)

/-- Days before January first of year `y` (year one maps to zero), as in
the Python `_days_before_year`. -/
def daysBeforeYear (y : Nat) : Nat :=
  365 * (y - 1) + (y - 1) / 4 + (y - 1) / 400 - (y - 1) / 100

/-- Proleptic Gregorian ordinal of a date, as in Python `date.toordinal`
(January first of year one is day 1). -/
def toOrdinal (y m d : Nat) : Nat := daysBeforeYear y + daysBeforeMonth y m + d

/-- The source `parse_date`: `strptime` with the day-dot-month-dot-year
format, returning `none` on a `ValueError`.  A successful parse is the
midnight `datetime`, encoded as seconds.  The `datetime` constructor
checks the year is in `[1, 9999]`, the month in `[1, 12]`, and the day in
`[1, days in month]` (the regex already guarantees most of these). -/
def parse_date (s : List Char) : Option Int :=
  match parseDMY s with
  | none => none
  | some (d, m, y) =>
    if 1 ≤ y ∧ y ≤ 9999 ∧ 1 ≤ m ∧ m ≤ 12 ∧ 1 ≤ d ∧ d ≤ daysInMonth y m then
      some ((toOrdinal y m d : Int) * 86400)
    else none

/-- the Python `datetime.min` (midnight, January first of year one) in the
seconds encoding. -/
def datetimeMin : Int := 86400

/-- The value of `timedelta(days=14)` in seconds. -/
def fourteenDays : Int := 14 * 86400

/-! ## Rows and the matcher -/

/-- One eligible table row after extraction (title text, optional anchor
target from the first cell, raw date text from the second cell). -/
structure RawRow where
  title : List Char
  href : Option (List Char)
  date_str : List Char
deriving DecidableEq

/-- One matched result dictionary, as appended to `results` in the source. -/
structure ResultRec where
  title : List Char
  pdf_url : List Char
  date_str : List Char
  date : Option Int
  matched_terms : List (List Char)
deriving DecidableEq

/-- The single-quote character (code 39), written by the source label
f-string around each term. -/
def sqCh : Char := Char.ofNat 39

/-- The label the source appends for a matching combination: an opening
parenthesis, the first term in single quotes, a comma and space, the second
term in single quotes, a closing parenthesis. -/
def comboLabel (t1 t2 : List Char) : List Char :=
  ('(' :: sqCh :: t1) ++ (sqCh :: ',' :: ' ' :: sqCh :: t2) ++ (sqCh :: ')' :: [])

/-- Both terms of the pair occur, case-insensitively, in the title. -/
def matchesCombo (p : List Char × List Char) (title : List Char) : Bool :=
  hasSubstr (lowerStr p.1) (lowerStr title) && hasSubstr (lowerStr p.2) (lowerStr title)

/-- The `matching_combos` list built for one row: one label per configured
combination whose two terms both occur in the title, in configuration
order. -/
def matchingCombos (terms : List (List Char × List Char)) (title : List Char) :
    List (List Char) :=
  terms.filterMap (fun p => if matchesCombo p title then some (comboLabel p.1 p.2) else none)

/-- Interpolation of a string-or-`None` Python value into an f-string. -/
def pyFormatOptStr : Option (List Char) → List Char
  | some s => s
  | none => noneLit

/-- The source `full_pdf_url` f-string: the base URL followed by the
interpolated `pdf_url` value (which is the relative link, or `None` when
the first cell has no anchor). -/
def fullPdfUrl (href : Option (List Char)) : List Char := base_url ++ pyFormatOptStr href

/-- Processing of one extracted row by the matcher: build the label list;
if it is empty the row is dropped, otherwise the result dictionary is
built exactly as in the source. -/
def buildResult (terms : List (List Char × List Char)) (r : RawRow) : Option ResultRec :=
  if (matchingCombos terms r.title).isEmpty then none
  else some { title := r.title, pdf_url := fullPdfUrl r.href, date_str := r.date_str,
              date := parse_date r.date_str, matched_terms := matchingCombos terms r.title }

/-- The matcher applied to all extracted rows (the `results` list). -/
def buildResults (terms : List (List Char × List Char)) (rows : List RawRow) :
    List ResultRec :=
  rows.filterMap (buildResult terms)

/-- Modelled from the spec, for comparison with the code: "detail_url:
absolute URL, built by concatenating a fixed base URL with the relative
link found in the first cell anchor; None/absent if no anchor exists". -/
def detailUrlSpec (href : Option (List Char)) : Option (List Char) :=
  href.map (fun h => base_url ++ h)

/-! ## Sorting and the dedup/recency filter -/

/-- The sort key of one result: its parsed date, with `datetime.min`
substituted when the date is unparseable. -/
def sortKey (r : ResultRec) : Int :=
  match r.date with
  | some d => d
  | none => datetimeMin

/-- Stable insertion of a result into a descending-sorted list: the new
element goes after every element whose key is at least as large (so
earlier input stays first on ties) and before the first strictly smaller
key. -/
def insertDesc (r : ResultRec) : List ResultRec → List ResultRec
  | [] => [r]
  | x :: xs => if sortKey x ≤ sortKey r then r :: x :: xs else x :: insertDesc r xs

/-- The source `results.sort(key=..., reverse=True)`.  Python `list.sort`
is stable, and with `reverse=True` it is a stable descending sort by the
key; a stable sort is a function of the key order alone, so the stable
insertion sort below computes the same list. -/
def sortResults : List ResultRec → List ResultRec
  | [] => []
  | x :: xs => insertDesc x (sortResults xs)

/-- The recency test of the final comprehension: the parsed date is present
(a `None` date is falsy) and is at least `now` minus fourteen days. -/
def recentOk (now : Int) (r : ResultRec) : Bool :=
  match r.date with
  | some d => decide (now - fourteenDays ≤ d)
  | none => false

/-! ## The record store -/

/-- One persisted value of the record store (the dictionary written for a
sent result). -/
structure SentRecord where
  title : List Char
  date : List Char
  sent_at : List Char
deriving DecidableEq

/-- The record store mapping, modelled as a Python dict: an association
list without duplicate keys, insertion at the back. -/
abbrev Store := List (List Char × SentRecord)

/-- The state of the record store file on disk. -/
inductive FileState where
  | absent
  | unreadable
  | content (s : Store)
deriving DecidableEq

/-- The source `load_sent_results`: an absent file yields the empty
mapping, any read or parse failure is caught, logged and also yields the
empty mapping, and otherwise the stored mapping is returned. -/
def load_sent_results : FileState → Store
  | .absent => []
  | .unreadable => []
  | .content s => s

/-- The source `save_results`: rewrite the store file with the full
mapping; a write failure is caught and logged, leaving the file as it
was. -/
def save_results (writeFails : Bool) (file : FileState) (s : Store) : FileState :=
  if writeFails then file else .content s

/-- Python dict assignment `store[k] = v`: replace in place if the key is
present, else append. -/
def pyInsert : Store → List Char → SentRecord → Store
  | [], k, v => [(k, v)]
  | p :: rest, k, v => if p.1 = k then (k, v) :: rest else p :: pyInsert rest k v

/-- Python dict indexing `store[k]` as an optional value. -/
def pyLookup : Store → List Char → Option SentRecord
  | [], _ => none
  | p :: rest, k => if p.1 = k then some p.2 else pyLookup rest k

/-- Python dict membership `k in store`. -/
def pyHasKey : Store → List Char → Bool
  | [], _ => false
  | p :: rest, k => decide (p.1 = k) || pyHasKey rest k

/-- The marking loop of `format_results_as_html`: for each sent row, insert
its record (title, raw date string, send timestamp) under its `pdf_url`. -/
def persistRows (stamp : List Char) (store : Store) (rows : List ResultRec) : Store :=
  rows.foldl (fun st r => pyInsert st r.pdf_url ⟨r.title, r.date_str, stamp⟩) store

/-- The dedup and recency stage of `scrape_parking_auctions`: sort the
matched results, drop those whose `pdf_url` is already a key of the loaded
store, then keep those passing the recency test. -/
def selectRows (known : Store) (now : Int) (rows : List ResultRec) : List ResultRec :=
  List.filter (fun r => recentOk now r)
    (List.filter (fun r => !pyHasKey known r.pdf_url) (sortResults rows))

/-! ## The formatter -/

/-- Insertion of a string into a strictly sorted list, skipping
duplicates. -/
def insertSortedStr (s : List Char) : List (List Char) → List (List Char)
  | [] => [s]
  | x :: xs =>
    if lexLt s x then s :: x :: xs
    else if s = x then x :: xs
    else x :: insertSortedStr s xs

/-- the Python `sorted(set(...))` on strings: the strictly increasing list of
the distinct elements, computed here by repeated sorted insertion. -/
def sortedUnique (l : List (List Char)) : List (List Char) := l.foldr insertSortedStr []

/-- the Python `comma-space.join`. -/
def joinCommaSpace : List (List Char) → List Char
  | [] => []
  | [x] => x
  | x :: y :: rest => x ++ ',' :: ' ' :: joinCommaSpace (y :: rest)

/-- The union of the `matched_terms` of all rows, in row order (the set
update loop of the formatter before sorting). -/
def allMatchedTerms (rows : List ResultRec) : List (List Char) :=
  (rows.map (fun r => r.matched_terms)).flatten

/-- The subject line written by the formatter: the sorted distinct matched
labels, comma-joined, inside square brackets. -/
def subjectContent (rows : List ResultRec) : List Char :=
  '[' :: (joinCommaSpace (sortedUnique (allMatchedTerms rows)) ++ (']' :: []))

/-- Failure oracles for the formatter three file writes (subject file,
body file, record store). -/
structure WriteEnv where
  subjectFails : Bool
  bodyFails : Bool
  saveFails : Bool
deriving DecidableEq

/-- The source `write_file_output`: on failure the exception is caught
and the process exits with status one (modelled as the error case). -/
def write_file_output (writeFails : Bool) : Except Unit Unit :=
  if writeFails then Except.error () else Except.ok ()

/-- The source `format_results_as_html`, with the file writes abstracted
to the oracles of `WriteEnv` and the subject/body contents modelled by
`subjectContent`: empty input returns `false` with no writes; otherwise the
subject file and then the body file are written, a failed write exits with
status one (the error case) before the store is touched; finally the store
is reloaded, the sent rows are inserted, and the store is rewritten (a
store-write failure is non-fatal).  The returned `FileState` is the record
store file after the call. -/
def format_results_as_html (env : WriteEnv) (file : FileState) (stamp : List Char)
    (rows : List ResultRec) : Except Unit Bool × FileState :=
  if rows.isEmpty then (Except.ok false, file)
  else
    match write_file_output env.subjectFails with
    | Except.error _ => (Except.error (), file)
    | Except.ok _ =>
      match write_file_output env.bodyFails with
      | Except.error _ => (Except.error (), file)
      | Except.ok _ =>
        (Except.ok true,
         save_results env.saveFails file (persistRows stamp (load_sent_results file) rows))

/-! ## Concrete fixtures -/

/-- A title containing both terms of the first configured combination. -/
def title33 : List Char := "Licitatie Nr. 33 teren parcare 964B".toList

def jan01 : List Char := "01.01.2026".toList

def jan15 : List Char := "15.01.2026".toList

def badDate : List Char := "N/A".toList

def docHref : List Char := "/dm_iasi/doc.pdf".toList

def nr33 : List Char := "Nr. 33".toList

def t964B : List Char := "964B".toList

/-- An extracted row whose first cell has an anchor. -/
def raw33 : RawRow := { title := title33, href := some docHref, date_str := jan01 }

/-- The result record the matcher builds from `raw33`. -/
def rec33 : ResultRec :=
  { title := title33, pdf_url := fullPdfUrl (some docHref), date_str := jan01,
    date := parse_date jan01, matched_terms := matchingCombos search_terms title33 }

/-- An extracted row whose first cell has no anchor but whose title
matches. -/
def rawNoAnchor : RawRow := { title := title33, href := none, date_str := jan01 }

/-- The result record the matcher builds from `rawNoAnchor`. -/
def recNoAnchor : ResultRec :=
  { title := title33, pdf_url := fullPdfUrl none, date_str := jan01,
    date := parse_date jan01, matched_terms := matchingCombos search_terms title33 }

/-- A notified row whose only matched combination is the first configured
pair. -/
def row33 : ResultRec :=
  { title := title33, pdf_url := fullPdfUrl (some docHref), date_str := jan01,
    date := parse_date jan01, matched_terms := [comboLabel nr33 t964B] }

/-- The double-quote character (code 34). -/
def dqCh : Char := Char.ofNat 34

/-- The subject string the claim asserts, with the two terms of the first
combination wrapped in double quotes. -/
def claimedSubject : List Char :=
  ('[' :: '(' :: dqCh :: nr33) ++ (dqCh :: ',' :: ' ' :: dqCh :: t964B) ++ (dqCh :: ')' :: ']' :: [])

def recJan01 : ResultRec :=
  { title := "a".toList, pdf_url := "u1".toList, date_str := jan01,
    date := parse_date jan01, matched_terms := [] }

def recJan15 : ResultRec :=
  { title := "b".toList, pdf_url := "u2".toList, date_str := jan15,
    date := parse_date jan15, matched_terms := [] }

/-- A row whose date text does not parse. -/
def recBad : ResultRec :=
  { title := "c".toList, pdf_url := "u3".toList, date_str := badDate,
    date := parse_date badDate, matched_terms := [] }

/-! ## Helper lemmas -/

/-- The empty string is a substring of every string (the Python `"" in s`). -/
theorem hasSubstr_nil (hay : List Char) : hasSubstr [] hay = true := by
  induction hay with
  | nil => rfl
  | cons c t ih => simp [hasSubstr, isPrefOf]

/-- The label list is empty exactly when no configured combination has both
terms in the title. -/
theorem matchingCombos_eq_nil_iff (terms : List (List Char × List Char))
    (title : List Char) :
    matchingCombos terms title = [] ↔ ∀ p ∈ terms, matchesCombo p title = false := by
  unfold matchingCombos
  rw [List.filterMap_eq_nil_iff]
  constructor
  · intro h p hp
    have h2 := h p hp
    by_cases hm : matchesCombo p title = true
    · simp [hm] at h2
    · simpa using hm
  · intro h p hp
    simp [h p hp]

/-- Looking up a key right after a dict assignment to it yields the
assigned value. -/
theorem pyLookup_insert_self (st : Store) (k : List Char) (v : SentRecord) :
    pyLookup (pyInsert st k v) k = some v := by
  induction st with
  | nil => simp [pyInsert, pyLookup]
  | cons p rest ih =>
    by_cases h : p.1 = k
    · simp [pyInsert, h, pyLookup]
    · simp [pyInsert, h, pyLookup, ih]

/-- Key membership after a dict assignment. -/
theorem pyHasKey_insert (st : Store) (k : List Char) (v : SentRecord) (u : List Char) :
    pyHasKey (pyInsert st k v) u = (pyHasKey st u || decide (k = u)) := by
  induction st with
  | nil => simp [pyInsert, pyHasKey]
  | cons p rest ih =>
    by_cases h : p.1 = k
    · simp only [pyInsert, if_pos h, pyHasKey, h]
      cases hku : decide (k = u) <;> cases hr : pyHasKey rest u <;> simp [hku, hr]
    · simp only [pyInsert, if_neg h, pyHasKey, ih, Bool.or_assoc]

/-- Key membership after persisting a batch of rows: the old keys plus the
detail links of the rows. -/
theorem pyHasKey_persist (L : List ResultRec) (stamp : List Char) (st : Store)
    (u : List Char) :
    pyHasKey (persistRows stamp st L) u
      = (pyHasKey st u || L.any (fun r => decide (r.pdf_url = u))) := by
  induction L generalizing st with
  | nil => simp [persistRows]
  | cons r L ih =>
    simp only [persistRows, List.foldl_cons] at *
    rw [ih, pyHasKey_insert]
    simp [Bool.or_assoc]

/-- The recency test succeeds exactly on parseable dates within the
window. -/
theorem recentOk_iff (now : Int) (r : ResultRec) :
    recentOk now r = true ↔ ∃ d, r.date = some d ∧ now - fourteenDays ≤ d := by
  unfold recentOk
  cases hd : r.date with
  | none => simp
  | some d => simp

/-- Membership characterisation of the dedup and recency stage. -/
theorem mem_selectRows (known : Store) (now : Int) (rows : List ResultRec)
    (r : ResultRec) :
    r ∈ selectRows known now rows
      ↔ r ∈ sortResults rows ∧ pyHasKey known r.pdf_url = false
        ∧ recentOk now r = true := by
  unfold selectRows
  rw [List.mem_filter, List.mem_filter]
  constructor
  · rintro ⟨⟨h1, h2⟩, h3⟩
    exact ⟨h1, by simpa using h2, h3⟩
  · rintro ⟨h1, h2, h3⟩
    exact ⟨⟨h1, by simp [h2]⟩, h3⟩

/-! ## Claims C7, C8, C6, C10 -/

/-- C7: the state loader returns an empty mapping both when the record
store file is absent and when reading or parsing it fails, and returns the
stored mapping otherwise; no case is a fatal error. -/
theorem load_state_nonfatal :
    load_sent_results FileState.absent = []
    ∧ load_sent_results FileState.unreadable = []
    ∧ ∀ s : Store, load_sent_results (FileState.content s) = s :=
  ⟨rfl, rfl, fun _ => rfl⟩

/-- C8: persisting a row via the state writer and reloading via the state
loader yields a mapping containing the row detail link as a key whose
record carries the same title and the same raw date string. -/
theorem persist_then_load_roundtrip (f : FileState) (stamp : List Char)
    (r : ResultRec) :
    ∃ rec : SentRecord,
      pyLookup (load_sent_results (save_results false f
          (persistRows stamp (load_sent_results f) [r]))) r.pdf_url = some rec
      ∧ rec.title = r.title ∧ rec.date = r.date_str := by
  refine ⟨⟨r.title, r.date_str, stamp⟩, ?_, rfl, rfl⟩
  exact pyLookup_insert_self (load_sent_results f) r.pdf_url ⟨r.title, r.date_str, stamp⟩

/-- C6: when the subject or body artifact write fails, the formatter exits
with the error status before the record store is touched, leaving the
persisted state unchanged. -/
theorem artifact_write_atomic (env : WriteEnv) (f : FileState) (stamp : List Char)
    (rows : List ResultRec) (hne : rows ≠ [])
    (hfail : env.subjectFails = true ∨ env.bodyFails = true) :
    format_results_as_html env f stamp rows = (Except.error (), f) := by
  have h1 : rows.isEmpty = false := by
    cases rows with
    | nil => exact absurd rfl hne
    | cons a l => rfl
  cases hfail with
  | inl h => simp [format_results_as_html, write_file_output, h1, h]
  | inr h =>
    cases hs : env.subjectFails <;>
      simp [format_results_as_html, write_file_output, h1, h, hs]

/-- Witness for C6 at a concrete failing subject write. -/
theorem artifact_write_atomic_wit :
    format_results_as_html ⟨true, false, false⟩ FileState.absent [] [recJan01]
      = (Except.error (), FileState.absent) :=
  artifact_write_atomic ⟨true, false, false⟩ FileState.absent [] [recJan01]
    (List.cons_ne_nil _ _) (Or.inl rfl)

/-- C10: a combination with an empty-string term matches whenever its other
term is present, and a combination of two empty strings matches every
title, because the containment check treats the empty string as a
substring of any title. -/
theorem empty_term_combination (t title : List Char) :
    matchesCombo (t, []) title = hasSubstr (lowerStr t) (lowerStr title)
    ∧ matchesCombo ([], t) title = hasSubstr (lowerStr t) (lowerStr title)
    ∧ matchesCombo ([], []) title = true := by
  refine ⟨?_, ?_, ?_⟩ <;> simp [matchesCombo, lowerStr, hasSubstr_nil]

/-! ## Claim C1 -/

/-- C1: a result for an extracted row appears in the matcher output
exactly when some configured combination has both of its terms occurring
case-insensitively in the row title; every row of the output carries a
non-empty `matched_terms` list, and rows matching no combination are
dropped before any filtering. -/
theorem matcher_membership (terms : List (List Char × List Char)) (rows : List RawRow)
    (raw : RawRow) (rec : ResultRec) :
    ((buildResult terms raw).isSome = true
        ↔ ∃ p ∈ terms, matchesCombo p raw.title = true)
    ∧ (rec ∈ buildResults terms rows ↔ ∃ raw2 ∈ rows, buildResult terms raw2 = some rec)
    ∧ (rec ∈ buildResults terms rows → rec.matched_terms ≠ []) := by
  refine ⟨?_, ?_, ?_⟩
  · by_cases h : (matchingCombos terms raw.title).isEmpty
    · have hnil : matchingCombos terms raw.title = [] := by
        simpa [List.isEmpty_iff] using h
      have hall := (matchingCombos_eq_nil_iff terms raw.title).mp hnil
      constructor
      · intro hs
        exfalso
        unfold buildResult at hs
        rw [if_pos h] at hs
        simp at hs
      · rintro ⟨p, hp, hm⟩
        rw [hall p hp] at hm
        exact absurd hm (by simp)
    · have hnil : matchingCombos terms raw.title ≠ [] := by
        simpa [List.isEmpty_iff] using h
      constructor
      · intro _
        by_contra hne
        push_neg at hne
        exact hnil ((matchingCombos_eq_nil_iff terms raw.title).mpr
          (fun p hp => by simpa using hne p hp))
      · intro _
        unfold buildResult
        rw [if_neg h]
        simp
  · unfold buildResults
    exact List.mem_filterMap
  · intro hmem
    unfold buildResults at hmem
    obtain ⟨raw2, _, hb⟩ := List.mem_filterMap.mp hmem
    unfold buildResult at hb
    by_cases h : (matchingCombos terms raw2.title).isEmpty
    · rw [if_pos h] at hb
      exact absurd hb (by simp)
    · rw [if_neg h] at hb
      injection hb with h2
      rw [← h2]
      simpa [List.isEmpty_iff] using h

/-- Witness for C1 on a concrete matching row. -/
theorem matcher_membership_wit :
    (buildResult search_terms raw33).isSome = true ∧ rec33.matched_terms ≠ [] :=
  ⟨(matcher_membership search_terms [raw33] raw33 rec33).1.mpr
      ⟨("Nr. 33".toList, "964B".toList), by decide, by decide⟩,
   (matcher_membership search_terms [raw33] raw33 rec33).2.2 (by decide)⟩

/-! ## Claim C2 -/

/-- C2: the recency filter keeps a row exactly when its date is parseable
and at least `now` minus fourteen days; a row dated exactly fourteen days
before `now` passes, one dated fourteen days and one second before `now`
does not. -/
theorem recency_filter_boundary (now : Int) (l : List ResultRec) (r : ResultRec) :
    (r ∈ List.filter (fun x => recentOk now x) l
        ↔ r ∈ l ∧ ∃ d, r.date = some d ∧ now - fourteenDays ≤ d)
    ∧ (r.date = some (now - fourteenDays) → recentOk now r = true)
    ∧ (r.date = some (now - fourteenDays - 1) → recentOk now r = false) := by
  refine ⟨?_, ?_, ?_⟩
  · rw [List.mem_filter, recentOk_iff]
  · intro h
    unfold recentOk
    rw [h]
    simp
  · intro h
    unfold recentOk
    rw [h]
    simp

/-- Witness for C2 at the two boundary instants. -/
theorem recency_filter_boundary_wit :
    recentOk 0 { title := [], pdf_url := [], date_str := [],
                 date := some (0 - fourteenDays), matched_terms := [] } = true
    ∧ recentOk 0 { title := [], pdf_url := [], date_str := [],
                   date := some (0 - fourteenDays - 1), matched_terms := [] } = false :=
  ⟨(recency_filter_boundary 0 [] _).2.1 rfl,
   (recency_filter_boundary 0 [] _).2.2 rfl⟩

/-! ## Claim C3 (corrected): the source wraps each term of a label in
single quotes, so the subject for the row whose only matched combination
is the first configured pair is the single-quoted bracket string, not
the double-quoted one asserted by the claim. -/

/-- C3 counterexample: the subject for `row33` is the bracketed
single-quoted label and differs from the double-quoted string the claim
asserts. -/
theorem subject_double_quote_cex :
    subjectContent [row33] = ('[' :: comboLabel nr33 t964B) ++ (']' :: [])
    ∧ subjectContent [row33] ≠ claimedSubject := by
  exact ⟨by decide, by decide⟩

/-- C3 amended: for every matching combination the matcher appends the
canonical label with each term wrapped in single quotes, and the subject
line for the single notified row whose only matched combination is the
first configured pair is exactly that single-quoted label inside square
brackets. -/
theorem subject_single_quote_labels (terms : List (List Char × List Char))
    (t1 t2 title : List Char) :
    ((t1, t2) ∈ terms → matchesCombo (t1, t2) title = true →
        comboLabel t1 t2 ∈ matchingCombos terms title)
    ∧ subjectContent [row33] = ('[' :: comboLabel nr33 t964B) ++ (']' :: []) := by
  constructor
  · intro hmem hmatch
    unfold matchingCombos
    rw [List.mem_filterMap]
    exact ⟨(t1, t2), hmem, by rw [if_pos hmatch]⟩
  · decide

/-- Witness for the amended C3 on the first configured combination. -/
theorem subject_single_quote_labels_wit :
    comboLabel nr33 t964B ∈ matchingCombos search_terms title33 :=
  (subject_single_quote_labels search_terms nr33 t964B title33).1
    (by decide) (by decide)

/-! ## Claim C4 (corrected): for a matched row with no anchor the code
interpolates the Python value `None` into the f-string, so the stored
detail link is the base URL with the four characters `None` appended —
a present string, not an absent value. -/

/-- C4 counterexample: a matched anchor-less row produces a result whose
`pdf_url` is the base URL followed by `None`, while the spec reading
would leave the detail link absent. -/
theorem detail_url_none_cex :
    (buildResult search_terms rawNoAnchor).map (fun rec => rec.pdf_url)
        = some (base_url ++ noneLit)
    ∧ detailUrlSpec rawNoAnchor.href = none
    ∧ (buildResult search_terms rawNoAnchor).map (fun rec => rec.pdf_url)
        ≠ detailUrlSpec rawNoAnchor.href := by
  exact ⟨by decide, rfl, by decide⟩

/-- C4 amended: every matched row detail link is the base URL followed
by the f-string rendering of the anchor value: the relative link when an
anchor exists, the literal characters `None` when it does not (the row
still being processed by the rest of the pipeline). -/
theorem detail_url_concat (terms : List (List Char × List Char)) (raw : RawRow)
    (rec : ResultRec) (h : buildResult terms raw = some rec) :
    rec.pdf_url = base_url ++ pyFormatOptStr raw.href
    ∧ (∀ href, raw.href = some href → rec.pdf_url = base_url ++ href)
    ∧ (raw.href = none → rec.pdf_url = base_url ++ noneLit) := by
  unfold buildResult at h
  by_cases hc : (matchingCombos terms raw.title).isEmpty
  · rw [if_pos hc] at h
    exact absurd h (by simp)
  · rw [if_neg hc] at h
    injection h with h2
    rw [← h2]
    refine ⟨rfl, ?_, ?_⟩
    · intro href hh
      show fullPdfUrl raw.href = base_url ++ href
      rw [hh]
      rfl
    · intro hh
      show fullPdfUrl raw.href = base_url ++ noneLit
      rw [hh]
      rfl

/-- Witness for the amended C4 on the concrete anchor-less row. -/
theorem detail_url_concat_wit : recNoAnchor.pdf_url = base_url ++ noneLit :=
  (detail_url_concat search_terms rawNoAnchor recNoAnchor (by decide)).2.2 rfl

/-! ## Claim C5 -/

/-- Stable descending insertion permutes its input. -/
theorem insertDesc_perm (r : ResultRec) (l : List ResultRec) :
    (insertDesc r l).Perm (r :: l) := by
  induction l with
  | nil => exact List.Perm.refl _
  | cons x xs ih =>
    unfold insertDesc
    by_cases h : sortKey x ≤ sortKey r
    · rw [if_pos h]
    · rw [if_neg h]
      exact (ih.cons x).trans (List.Perm.swap r x xs)

/-- The sort permutes its input. -/
theorem sortResults_perm (l : List ResultRec) : (sortResults l).Perm l := by
  induction l with
  | nil => exact List.Perm.refl _
  | cons x xs ih => exact (insertDesc_perm x (sortResults xs)).trans (ih.cons x)

/-- Stable descending insertion preserves the descending-key invariant. -/
theorem insertDesc_pairwise (r : ResultRec) (l : List ResultRec)
    (hl : l.Pairwise (fun a b => sortKey b ≤ sortKey a)) :
    (insertDesc r l).Pairwise (fun a b => sortKey b ≤ sortKey a) := by
  induction l with
  | nil => simp [insertDesc]
  | cons x xs ih =>
    rw [List.pairwise_cons] at hl
    obtain ⟨hx, hxs⟩ := hl
    unfold insertDesc
    by_cases h : sortKey x ≤ sortKey r
    · rw [if_pos h]
      refine List.pairwise_cons.mpr ⟨?_, List.pairwise_cons.mpr ⟨hx, hxs⟩⟩
      intro b hb
      rcases List.mem_cons.mp hb with hbx | hbxs
      · rw [hbx]
        exact h
      · exact le_trans (hx b hbxs) h
    · rw [if_neg h]
      refine List.pairwise_cons.mpr ⟨?_, ih hxs⟩
      intro b hb
      rcases List.mem_cons.mp ((insertDesc_perm r xs).mem_iff.mp hb) with hbr | hbxs
      · rw [hbr]
        omega
      · exact hx b hbxs

/-- The sorted output is pairwise descending in the key. -/
theorem sortResults_pairwise (l : List ResultRec) :
    (sortResults l).Pairwise (fun a b => sortKey b ≤ sortKey a) := by
  induction l with
  | nil => simp [sortResults]
  | cons x xs ih => exact insertDesc_pairwise x (sortResults xs) ih

/-- Every parseable date is at least `datetime.min`. -/
theorem parse_date_ge_min (s : List Char) (v : Int) (h : parse_date s = some v) :
    datetimeMin ≤ v := by
  unfold parse_date at h
  split at h
  · exact absurd h (by simp)
  · rename_i d m y heq
    split_ifs at h with hc
    injection h with h2
    have hd : 1 ≤ d := hc.2.2.2.2.1
    have hord : 1 ≤ toOrdinal y m d := by
      unfold toOrdinal
      omega
    unfold datetimeMin
    rw [← h2]
    have h1 : (1 : Int) ≤ (toOrdinal y m d : Int) := by exact_mod_cast hord
    nlinarith

/-- C5: the first step of the dedup/recency stage sorts the matched rows
by parsed date descending; the sort key of an unparseable date is
`datetime.min`, which bounds every parseable date from below, and the
three concrete rows dated first of January, fifteenth of January and an
unparseable text come out fifteenth, first, unparseable. -/
theorem sort_desc_unparseable_last (rows : List ResultRec) (r : ResultRec)
    (s : List Char) :
    (sortResults rows).Pairwise (fun a b => sortKey b ≤ sortKey a)
    ∧ (sortResults rows).Perm rows
    ∧ (r.date = parse_date s → datetimeMin ≤ sortKey r)
    ∧ sortResults [recJan01, recJan15, recBad] = [recJan15, recJan01, recBad] := by
  refine ⟨sortResults_pairwise rows, sortResults_perm rows, ?_, by decide⟩
  intro h
  unfold sortKey
  cases hp : parse_date s with
  | none => rw [h, hp]
  | some v =>
    rw [h, hp]
    exact parse_date_ge_min s v hp

/-- Witness for C5 on the concrete first-of-January row. -/
theorem sort_desc_unparseable_last_wit : datetimeMin ≤ sortKey recJan01 :=
  (sort_desc_unparseable_last [] recJan01 jan01).2.2.1 rfl

/-! ## Claim C9 -/

/-- C9: the dedup/recency stage is idempotent across runs: with the known
keys extended by the records persisted from a first run output, a second
run over the same input rows selects nothing. -/
theorem dedup_select_idem (known : Store) (now : Int) (rows : List ResultRec)
    (stamp : List Char) :
    selectRows (persistRows stamp known (selectRows known now rows)) now rows = [] := by
  rw [List.eq_nil_iff_forall_not_mem]
  intro r hr
  rw [mem_selectRows] at hr
  obtain ⟨hsort, hkey, hrec⟩ := hr
  rw [pyHasKey_persist] at hkey
  rw [Bool.or_eq_false_iff] at hkey
  obtain ⟨hk1, hk2⟩ := hkey
  have hfirst : r ∈ selectRows known now rows :=
    (mem_selectRows known now rows r).mpr ⟨hsort, hk1, hrec⟩
  have hany : (selectRows known now rows).any
      (fun x => decide (x.pdf_url = r.pdf_url)) = true :=
    List.any_eq_true.mpr ⟨r, hfirst, by simp⟩
  rw [hk2] at hany
  exact absurd hany (by simp)
